import Mathlib

/-!
Verification of the myjson.hpp single-header JSON library (value model,
recursive-descent parser `parse_json`, serializer `write`/`write_string`).

The C++ input stream is embedded as a `List Char` of the remaining
characters (inputs under verification are ASCII text).  `istream::get`
returns the head character, or end-of-stream (`none`, the C++ `EOF`
cast to `char`) once the list is empty; after end-of-stream every
further `get` keeps returning end-of-stream, which the empty list also
models.  The parser's recursion is driven by a fuel parameter: the
result `PResult.more` means the computation did not finish — either the
fuel ran out or the code genuinely loops (the only genuine loop is
`read_string` reading end-of-stream forever, which the embedding maps
to `more` at every fuel).
-/

namespace Myjson

/-- JsonType from myjson.hpp lines 12-19: the discriminant enum. -/
inductive JsonType where
  | NIL
  | STRING
  | NUMBER
  | BOOL
  | ARRAY
  | OBJECT
deriving DecidableEq

/-- The value model: JsonNode and its five subclasses (myjson.hpp lines
23-191).  A string payload is kept as the list of its characters; the
`double` payload is embedded as an exact rational, faithful for the
integral literals exercised here; a JsonObject's `unordered_map` is
embedded as its association list in insertion order (iteration order of
the C++ container is unspecified; only contents matter below). -/
inductive Json where
  | null
  | str (s : List Char)
  | num (q : ℚ)
  | bool (b : Bool)
  | arr (elems : List Json)
  | obj (entries : List (List Char × Json))

/-- The exceptions thrown inside `parse_json` (myjson.hpp lines 230,
236, 242, 264, 281), keyed by kind; the message text of line 281 is not
modelled (the C++ `"..." + letter` there offsets the string literal's
pointer by the character value instead of appending). -/
inductive PErr where
  | misspelledTrue
  | misspelledFalse
  | misspelledNull
  | expectedColon
  | unexpectedChar (c : Char)
deriving DecidableEq

/-- Outcome of a `parse_json` call: a value plus the unread remainder of
the stream, a thrown exception, or `more` when the computation has not
finished (fuel exhausted, or the code loops forever). -/
inductive PResult where
  | ok (v : Json) (rest : List Char)
  | err (e : PErr)
  | more

/-- One `in.get()`: head character, or end-of-stream on the empty list. -/
def get : List Char → Option Char × List Char
  | [] => (none, [])
  | c :: rest => (some c, rest)

/-- The loop body of the `read_string` lambda (myjson.hpp lines
196-211), with `letter` the character most recently read (`none` =
end-of-stream).  Faithful to the else-if chain: each of the three
branches performs its own fresh `in.get()`, so up to three characters
after a backslash are consumed.  When `letter` is end-of-stream the C++
loop runs forever (`(char)EOF` never equals `'"'` and the stream yields
`EOF` from then on); the embedding returns `none` for that divergence. -/
def rsLoop : Option Char → List Char → Option (List Char × List Char)
  | none, _ => none
  | some c, s =>
    if c = '"' then some ([], s)
    else if c = '\\' then
      match s with
      | [] => none
      | '"' :: s1 =>
        match s1 with
        | [] => none
        | x :: t => (rsLoop (some x) t).map (fun p => ('"' :: p.1, p.2))
      | _ :: s1 =>
        match s1 with
        | [] => none
        | 'n' :: s2 =>
          match s2 with
          | [] => none
          | x :: t => (rsLoop (some x) t).map (fun p => ('\n' :: p.1, p.2))
        | _ :: s2 =>
          match s2 with
          | [] => none
          | '\\' :: s3 =>
            match s3 with
            | [] => none
            | x :: t => (rsLoop (some x) t).map (fun p => ('\\' :: p.1, p.2))
          | _ :: s3 =>
            match s3 with
            | [] => none
            | x :: t => rsLoop (some x) t
    else
      match s with
      | [] => none
      | x :: t => (rsLoop (some x) t).map (fun p => (c :: p.1, p.2))
termination_by structural _ s => s

/-- The `read_string` lambda (myjson.hpp lines 196-211): first
`in.get()`, then the collecting loop.  `none` models the infinite loop
reached once the stream is exhausted before an unescaped `'"'`. -/
def read_string (s : List Char) : Option (List Char × List Char) :=
  match s with
  | [] => none
  | c :: t => rsLoop (some c) t

/-- The `read_whitespace` lambda (myjson.hpp lines 213-219): discard
space, tab, newline and comma characters, return the first other
character (end-of-stream gives the C++ `(char)EOF`, here `none`). -/
def read_whitespace : List Char → Option Char × List Char
  | [] => (none, [])
  | c :: rest =>
    if c = ' ' ∨ c = '\t' ∨ c = '\n' ∨ c = ',' then read_whitespace rest
    else (some c, rest)

/-- `letter >= '0' && letter <= '9'` from myjson.hpp lines 244, 250. -/
def isDigit (c : Char) : Bool :=
  decide (48 ≤ c.toNat ∧ c.toNat ≤ 57)

/-- The character set of the numeric scan's loop condition (myjson.hpp
line 250): `-`, `E`, `e`, `,`, `.` or a digit. -/
def scanSet (c : Char) : Bool :=
  c == '-' || c == 'E' || c == 'e' || c == ',' || c == '.' || isDigit c

/-- The do-while scan of myjson.hpp lines 247-251, run after the first
character of the numeral was already consumed.  Returns the characters
appended to `asString` and the stream after the final `in.unget()`
(the terminating character is both appended to the buffer and pushed
back).  At end-of-stream the C++ appends `(char)EOF` to the buffer and
`unget` is a no-op on the failed stream; that byte can never extend the
numeric field of the conversion, so the embedding omits it. -/
def scanNumber : List Char → List Char × List Char
  | [] => ([], [])
  | c :: rest =>
    if scanSet c then
      let p := scanNumber rest
      (c :: p.1, p.2)
    else ([c], c :: rest)

/-- Stage-2 character set of `num_get` used by
`std::stringstream >> double` (myjson.hpp lines 252-254) in the classic
locale: the characters that may enter the conversion field. -/
def stage2Char (c : Char) : Bool :=
  isDigit c || c == 'a' || c == 'b' || c == 'c' || c == 'd' || c == 'e' ||
  c == 'f' || c == 'x' || c == 'A' || c == 'B' || c == 'C' || c == 'D' ||
  c == 'E' || c == 'F' || c == 'X' || c == '+' || c == '-' || c == '.'

/-- Decimal value of a digit string, most significant first. -/
def digitsVal (ds : List Char) : ℕ :=
  ds.foldl (fun a c => 10 * a + (c.toNat - 48)) 0

/-- Exponent tail after `e`/`E`: optional sign then at least one digit. -/
def parseExpTail (cs : List Char) : Option (ℤ × List Char) :=
  match cs with
  | [] => none
  | c :: t =>
    if c = '+' then
      let ds := t.takeWhile isDigit
      if ds = [] then none else some ((digitsVal ds : ℤ), t.dropWhile isDigit)
    else if c = '-' then
      let ds := t.takeWhile isDigit
      if ds = [] then none else some (-(digitsVal ds : ℤ), t.dropWhile isDigit)
    else
      let ds := cs.takeWhile isDigit
      if ds = [] then none else some ((digitsVal ds : ℤ), cs.dropWhile isDigit)

/-- Optional exponent then end of field; `none` when the field has
trailing characters the double grammar cannot consume (the whole-field
conversion of `num_get` then fails). -/
def mantExp (m : ℚ) (cs : List Char) : Option ℚ :=
  match cs with
  | [] => some m
  | c :: t =>
    if c = 'e' ∨ c = 'E' then
      match parseExpTail t with
      | some (k, []) => some (m * (10 : ℚ) ^ k)
      | _ => none
    else none

/-- Unsigned part of the strict double grammar: digits, optional
fraction, optional exponent, and nothing left over. -/
def strictMag (cs : List Char) : Option ℚ :=
  let ip := cs.takeWhile isDigit
  let r1 := cs.dropWhile isDigit
  match r1 with
  | '.' :: t =>
    let fp := t.takeWhile isDigit
    let r2 := t.dropWhile isDigit
    if ip = [] ∧ fp = [] then none
    else mantExp ((digitsVal ip : ℚ) + (digitsVal fp : ℚ) / (10 : ℚ) ^ fp.length) r2
  | _ => if ip = [] then none else mantExp (digitsVal ip : ℚ) r1

/-- Strict decimal double grammar over a whole field. -/
def strictDouble (cs : List Char) : Option ℚ :=
  match cs with
  | [] => none
  | c :: t =>
    if c = '-' then (strictMag t).map (fun q => -q)
    else if c = '+' then strictMag t
    else strictMag cs

/-- `std::stringstream parsing(asString); parsing >> number` (myjson.hpp
lines 252-254): `num_get` accumulates the longest stage-2 field, then
converts it with the double grammar; a failed conversion stores 0
(C++11 semantics).  Exact rational arithmetic stands in for the
`double`; it agrees with the C++ on the integral literals proved about
below. -/
def convertField (asString : List Char) : ℚ :=
  match strictDouble (asString.takeWhile stage2Char) with
  | some q => q
  | none => 0

/-- The numeric branch of `parse_json` (myjson.hpp lines 244-255) after
its first character `first` was consumed: greedy scan, unget, convert. -/
def parseNumber (first : Char) (s : List Char) : ℚ × List Char :=
  let p := scanNumber s
  (convertField (first :: p.1), p.2)

/-- `retval->get_object()[name] = value` on the embedded association
list: overwrite the entry of an existing key in place, else append. -/
def objInsert (entries : List (List Char × Json)) (k : List Char) (v : Json) :
    List (List Char × Json) :=
  match entries with
  | [] => [(k, v)]
  | (k1, v1) :: rest =>
    if k1 = k then (k, v) :: rest else (k1, v1) :: objInsert rest k v

mutual

/-- `parse_json(std::istream&)` (myjson.hpp lines 194-284), fuel-indexed:
skip-and-peek, then dispatch on the first significant character. -/
def parse_json : Nat → List Char → PResult
  | 0, _ => .more
  | n + 1, s =>
    match read_whitespace s with
    | (none, _) => .ok .null []
    | (some c, s1) =>
      if c = '\x00' then .ok .null s1
      else if c = '"' then
        match read_string s1 with
        | none => .more
        | some (col, rest) => .ok (.str col) rest
      else if c = 't' then
        match s1 with
        | 'r' :: 'u' :: 'e' :: rest => .ok (.bool true) rest
        | _ => .err .misspelledTrue
      else if c = 'f' then
        match s1 with
        | 'a' :: 'l' :: 's' :: 'e' :: rest => .ok (.bool false) rest
        | _ => .err .misspelledFalse
      else if c = 'n' then
        match s1 with
        | 'u' :: 'l' :: 'l' :: rest => .ok .null rest
        | _ => .err .misspelledNull
      else if c = '-' ∨ isDigit c then
        let p := parseNumber c s1
        .ok (.num p.1) p.2
      else if c = '{' then objLoop n [] s1
      else if c = '[' then arrLoop n [] s1
      else .err (.unexpectedChar c)

/-- The object branch's do-while loop (myjson.hpp lines 257-268): after
a key-value pair `letter` holds `':'`, so the `while (letter != '}')`
test never exits and the loop leaves only through its `break`; the
significant character that causes the break is consumed. -/
def objLoop : Nat → List (List Char × Json) → List Char → PResult
  | 0, _, _ => .more
  | n + 1, acc, s =>
    match read_whitespace s with
    | (some '"', s1) =>
      match read_string s1 with
      | none => .more
      | some (key, s2) =>
        match read_whitespace s2 with
        | (some ':', s3) =>
          match parse_json n s3 with
          | .ok v s4 => objLoop n (objInsert acc key v) s4
          | .err e => .err e
          | .more => .more
        | _ => .err .expectedColon
    | (_, s1) => .ok (.obj acc) s1

/-- The array branch's do-while loop (myjson.hpp lines 270-279): after a
recursive element `letter` holds `'{'`, so `while (letter != ']')`
never exits and the loop leaves only through its `break`; only a `'{'`
is pushed back (`in.unget()`) before recursing, every other significant
character is consumed by the break. -/
def arrLoop : Nat → List Json → List Char → PResult
  | 0, _, _ => .more
  | n + 1, acc, s =>
    match read_whitespace s with
    | (some '{', s1) =>
      match parse_json n ('{' :: s1) with
      | .ok v s2 => arrLoop n (acc ++ [v]) s2
      | .err e => .err e
      | .more => .more
    | (_, s1) => .ok (.arr acc) s1

end

/-- `parse_json(const std::string& filename)` (myjson.hpp lines
286-290): the filesystem is abstracted as the optional content of the
file at the path — `none` when `std::ifstream` cannot open it, in which
case a default `JsonNode` (Null) is returned with no error thrown. -/
def parse_json_file (content : Option (List Char)) (fuel : Nat) : PResult :=
  match content with
  | none => .ok .null []
  | some s => parse_json fuel s

/-- `JsonNode::write_string` escape of one character (myjson.hpp lines
56-67). -/
def esc_char (c : Char) : List Char :=
  if c = '"' then ['\\', '"']
  else if c = '\n' then ['\\', 'n']
  else if c = '\\' then ['\\', '\\']
  else [c]

/-- `JsonNode::write_string` (myjson.hpp lines 54-70); also the whole of
`JsonString::write` (line 95-97), which forwards to it. -/
def write_string (w : List Char) : List Char :=
  '"' :: w.foldr (fun c acc => esc_char c ++ acc) ['"']

/-- Discriminant query `get_type` (base returns NIL, each subclass its
own tag; myjson.hpp lines 24-26, 89-91, 103-105, 117-119, 131-133,
168-170). -/
def get_type : Json → JsonType
  | .null => .NIL
  | .str _ => .STRING
  | .num _ => .NUMBER
  | .bool _ => .BOOL
  | .arr _ => .ARRAY
  | .obj _ => .OBJECT

/-- `get_string`: only JsonString overrides the base method, which
throws `runtime_error("not a string")` (myjson.hpp lines 27-29, 92-94). -/
def get_string : Json → Except String (List Char)
  | .str s => .ok s
  | _ => .error "not a string"

/-- `get_double` (myjson.hpp lines 30-32, 106-108). -/
def get_double : Json → Except String ℚ
  | .num q => .ok q
  | _ => .error "not a double"

/-- `get_bool` (myjson.hpp lines 33-35, 120-122). -/
def get_bool : Json → Except String Bool
  | .bool b => .ok b
  | _ => .error "not a bool"

/-- `get_vector` (myjson.hpp lines 36-38, 171-173). -/
def get_vector : Json → Except String (List Json)
  | .arr a => .ok a
  | _ => .error "not an array"

/-- `get_object` (myjson.hpp lines 39-41, 134-136). -/
def get_object : Json → Except String (List (List Char × Json))
  | .obj o => .ok o
  | _ => .error "not an object"

/-- Whether an accessor call succeeded (no exception thrown). -/
def exOk {α : Type} : Except String α → Bool
  | .ok _ => true
  | .error _ => false

/-! ### Helper lemmas -/

/-- A predicate that holds on every element lets takeWhile keep the list. -/
theorem takeWhile_all (p : Char → Bool) :
    ∀ l : List Char, (∀ x ∈ l, p x = true) → l.takeWhile p = l := by
  intro l
  induction l with
  | nil => intro _; rfl
  | cons x xs ih =>
    intro h
    simp [List.takeWhile, h x (by simp), ih (fun y hy => h y (by simp [hy]))]

/-- A predicate that holds on every element makes dropWhile drop it all. -/
theorem dropWhile_all (p : Char → Bool) :
    ∀ l : List Char, (∀ x ∈ l, p x = true) → l.dropWhile p = [] := by
  intro l
  induction l with
  | nil => intro _; rfl
  | cons x xs ih =>
    intro h
    simp [List.dropWhile, h x (by simp), ih (fun y hy => h y (by simp [hy]))]

/-- takeWhile stops exactly at the first failing character. -/
theorem takeWhile_append_stop (p : Char → Bool) (l : List Char) (c : Char)
    (r : List Char) (hl : ∀ x ∈ l, p x = true) (hc : p c = false) :
    (l ++ c :: r).takeWhile p = l := by
  induction l with
  | nil => simp [List.takeWhile, hc]
  | cons x xs ih =>
    simp [List.takeWhile, hl x (by simp), ih (fun y hy => hl y (by simp [hy]))]

/-- A digit is in the numeric scan's character set. -/
theorem scanSet_of_digit (c : Char) (h : isDigit c = true) : scanSet c = true := by
  simp [scanSet, h]

/-- A digit is in the stage-2 conversion field set. -/
theorem stage2_of_digit (c : Char) (h : isDigit c = true) : stage2Char c = true := by
  simp [stage2Char, h]

/-- The greedy numeric scan over a digit string followed by a
non-scan-set character: the digits and the terminator enter the buffer,
and the terminator is pushed back onto the stream. -/
theorem scan_digits (ds : List Char) (c : Char) (rest : List Char)
    (hall : ∀ x ∈ ds, isDigit x = true) (hc : scanSet c = false) :
    scanNumber (ds ++ c :: rest) = (ds ++ [c], c :: rest) := by
  induction ds with
  | nil => simp [scanNumber, hc]
  | cons d ds ih =>
    have hd : scanSet d = true := scanSet_of_digit d (hall d (by simp))
    simp [scanNumber, hd, ih (fun y hy => hall y (by simp [hy]))]

/-- The strict double grammar on a pure digit string yields its decimal
value. -/
theorem strictDouble_digits (d : Char) (ds : List Char)
    (hd : isDigit d = true) (hds : ∀ x ∈ ds, isDigit x = true) :
    strictDouble (d :: ds) = some ((digitsVal (d :: ds) : ℚ)) := by
  have hall : ∀ x ∈ d :: ds, isDigit x = true := by
    intro x hx
    rcases List.mem_cons.mp hx with h | h
    · exact h ▸ hd
    · exact hds x h
  have hm : d ≠ '-' := by rintro rfl; exact absurd hd (by decide)
  have hp : d ≠ '+' := by rintro rfl; exact absurd hd (by decide)
  have h1 : (d :: ds).takeWhile isDigit = d :: ds := takeWhile_all _ _ hall
  have h2 : (d :: ds).dropWhile isDigit = [] := dropWhile_all _ _ hall
  simp only [strictDouble, if_neg hm, if_neg hp, strictMag, h1, h2]
  simp [mantExp]

/-- The field conversion on digits followed by a character outside the
stage-2 set ignores the trailing character. -/
theorem convertField_digits (d : Char) (ds : List Char) (c : Char)
    (hd : isDigit d = true) (hds : ∀ x ∈ ds, isDigit x = true)
    (hc : stage2Char c = false) :
    convertField ((d :: ds) ++ [c]) = ((digitsVal (d :: ds) : ℕ) : ℚ) := by
  have hall : ∀ x ∈ d :: ds, stage2Char x = true := by
    intro x hx
    rcases List.mem_cons.mp hx with h | h
    · exact h ▸ stage2_of_digit d hd
    · exact stage2_of_digit x (hds x h)
  simp only [convertField, takeWhile_append_stop stage2Char (d :: ds) c [] hall hc,
    strictDouble_digits d ds hd hds]

/-! ### Claim theorems -/

/-- C1: parsing the text "line1\nline2" does NOT yield a payload with a
literal newline: each arm of the escape else-if chain performs a fresh
in.get(), so the backslash consumes the three characters n, l, i and
emits nothing, and the parse yields "line1ne2".  The serializing
direction of the claim does hold: write_string on the intended payload
emits the two-character sequence backslash-n. -/
theorem escape_slip_eval :
    parse_json 20 ("\"line1\\nline2\"".data) = .ok (.str "line1ne2".data) []
    ∧ "line1ne2".data ≠ ['l', 'i', 'n', 'e', '1', '\n', 'l', 'i', 'n', 'e', '2']
    ∧ write_string ['l', 'i', 'n', 'e', '1', '\n', 'l', 'i', 'n', 'e', '2']
      = "\"line1\\nline2\"".data := by
  refine ⟨rfl, by decide, rfl⟩

/-- C2: the round-trip fails for a flat String value inside the claimed
alphabet: serializing the payload x-newline-y produces "x\ny", and
re-parsing that text never returns (the escape chain swallows the
closing quote, after which read_string reads end-of-stream forever), at
every fuel. -/
theorem roundtrip_newline_diverges :
    ∀ n : Nat, parse_json n (write_string ['x', '\n', 'y']) = .more := by
  intro n
  cases n with
  | zero => rfl
  | succ m => rfl

/-- C3: parse_json does not terminate on the unterminated string input
quote-a-b-c: read_string keeps reading end-of-stream, whose value never
equals the closing quote, at every fuel. -/
theorem unterminated_string_diverges :
    ∀ n : Nat, parse_json n ("\"abc".data) = .more := by
  intro n
  cases n with
  | zero => rfl
  | succ m => rfl

/-- C4: the array parser recurses only into elements that start with a
brace: [1,2,3] parses to an Array with zero elements, and
[{"x":1},{"y":2}] parses to an Array of exactly the two Objects in
input order. -/
theorem array_of_objects_only :
    parse_json 20 ['[', '1', ',', '2', ',', '3', ']'] = .ok (.arr []) [',', '2', ',', '3', ']']
    ∧ parse_json 20 ['[', '{', '"', 'x', '"', ':', '1', '}', ',', '{', '"', 'y', '"', ':', '2', '}', ']']
      = .ok (.arr [.obj [(['x'], .num 1)], .obj [(['y'], .num 2)]]) [] :=
  ⟨rfl, rfl⟩

/-- C5: the numeric branch consumes exactly the numeral, returns its
value (the terminator entering the text buffer is ignored by the
conversion), and pushes the terminating character back onto the stream;
concretely, {"a":42} parses to an Object mapping a to the Number 42. -/
theorem numeric_scan_pushback :
    parse_json 20 ['{', '"', 'a', '"', ':', '4', '2', '}'] = .ok (.obj [(['a'], .num 42)]) []
    ∧ ∀ (d : Char) (ds : List Char) (c : Char) (rest : List Char),
        isDigit d = true → (∀ x ∈ ds, isDigit x = true) →
        scanSet c = false → stage2Char c = false →
        parseNumber d (ds ++ c :: rest) = (((digitsVal (d :: ds) : ℕ) : ℚ), c :: rest) := by
  refine ⟨rfl, ?_⟩
  intro d ds c rest hd hds hscan hstage
  simp only [parseNumber, scan_digits ds c rest hds hscan]
  have h : d :: (ds ++ [c]) = (d :: ds) ++ [c] := by simp
  rw [h, convertField_digits d ds c hd hds hstage]

/-- C5 witness: the general statement applied to the numeral 42 with
terminator brace. -/
theorem numeric_scan_pushback_witness :
    parseNumber '4' (['2'] ++ '}' :: []) = (((digitsVal ['4', '2'] : ℕ) : ℚ), '}' :: []) :=
  numeric_scan_pushback.2 '4' ['2'] '}' [] (by decide) (by decide) (by decide) (by decide)

/-- C6: parsing an object text with the duplicate key a yields exactly
one entry holding the last value, and the insertion operation used by
the object branch overwrites an existing key unconditionally. -/
theorem object_last_write_wins :
    parse_json 20 ['{', '"', 'a', '"', ':', ' ', '1', ',', ' ', '"', 'a', '"', ':', ' ', '2', '}']
      = .ok (.obj [(['a'], .num 2)]) []
    ∧ ∀ (m : List (List Char × Json)) (k : List Char) (v1 v2 : Json),
        objInsert (objInsert m k v1) k v2 = objInsert m k v2 := by
  refine ⟨rfl, ?_⟩
  intro m k v1 v2
  induction m with
  | nil => simp [objInsert]
  | cons e rest ih =>
    obtain ⟨k1, w⟩ := e
    by_cases hk : k1 = k <;> simp [objInsert, hk, ih]

/-- C7: commas are discarded by the same skip-and-peek routine that
discards whitespace, anywhere it runs: {,"a": 1,} and {"a": 1} parse to
the same single-entry Object, and read_whitespace treats a leading
comma exactly like a leading space, tab or newline. -/
theorem comma_noise :
    parse_json 20 ['{', ',', '"', 'a', '"', ':', ' ', '1', ',', '}'] = .ok (.obj [(['a'], .num 1)]) []
    ∧ parse_json 20 ['{', '"', 'a', '"', ':', ' ', '1', '}'] = .ok (.obj [(['a'], .num 1)]) []
    ∧ (∀ s, read_whitespace (',' :: s) = read_whitespace s)
    ∧ (∀ s, read_whitespace (' ' :: s) = read_whitespace s)
    ∧ (∀ s, read_whitespace ('\t' :: s) = read_whitespace s)
    ∧ (∀ s, read_whitespace ('\n' :: s) = read_whitespace s) := by
  refine ⟨rfl, rfl, ?_, ?_, ?_, ?_⟩ <;> intro s <;> simp [read_whitespace]

/-- C8: the file overload returns a Null value, with no error, whenever
the path cannot be opened; once the file is open its content is handed
to the stream parser unchanged, whose errors propagate (shown on a
malformed one-character content). -/
theorem missing_file_null :
    (∀ n, parse_json_file none n = .ok .null [])
    ∧ (∀ s n, parse_json_file (some s) n = parse_json n s)
    ∧ parse_json_file (some ['x']) 5 = .err (.unexpectedChar 'x') :=
  ⟨fun _ => rfl, fun _ _ => rfl, rfl⟩

/-- C9: an accessor succeeds exactly when the value's discriminant
matches it, a matching accessor returns the payload, a Boolean value
fails the string accessor but answers the bool accessor, and a Null
value fails all five payload accessors while get_type answers NIL. -/
theorem accessor_type_mismatch :
    (∀ b, get_string (.bool b) = .error "not a string" ∧ get_bool (.bool b) = .ok b)
    ∧ (get_string .null = .error "not a string"
       ∧ get_double .null = .error "not a double"
       ∧ get_bool .null = .error "not a bool"
       ∧ get_vector .null = .error "not an array"
       ∧ get_object .null = .error "not an object"
       ∧ get_type .null = .NIL)
    ∧ (∀ s, get_string (.str s) = .ok s)
    ∧ (∀ q, get_double (.num q) = .ok q)
    ∧ (∀ a, get_vector (.arr a) = .ok a)
    ∧ (∀ o, get_object (.obj o) = .ok o)
    ∧ (∀ v, exOk (get_string v) = true ↔ get_type v = .STRING)
    ∧ (∀ v, exOk (get_double v) = true ↔ get_type v = .NUMBER)
    ∧ (∀ v, exOk (get_bool v) = true ↔ get_type v = .BOOL)
    ∧ (∀ v, exOk (get_vector v) = true ↔ get_type v = .ARRAY)
    ∧ (∀ v, exOk (get_object v) = true ↔ get_type v = .OBJECT) := by
  refine ⟨fun b => ⟨rfl, rfl⟩, ⟨rfl, rfl, rfl, rfl, rfl, rfl⟩,
    fun s => rfl, fun q => rfl, fun a => rfl, fun o => rfl, ?_, ?_, ?_, ?_, ?_⟩ <;>
    intro v <;> cases v <;>
    simp [exOk, get_string, get_double, get_bool, get_vector, get_object, get_type]

/-- C10: when skip-and-peek yields a significant character other than a
brace, the array loop stops with that character consumed (the returned
stream is the one after it), and only a brace is pushed back before the
recursive element parse; concretely, parsing [1,2,3] leaves ,2,3]
unconsumed while the rejecting character 1 is swallowed. -/
theorem array_break_consumes :
    parse_json 20 ['[', '1', ',', '2', ',', '3', ']'] = .ok (.arr []) [',', '2', ',', '3', ']']
    ∧ (∀ (n : Nat) (acc : List Json) (s s1 : List Char) (c : Char),
        read_whitespace s = (some c, s1) → c ≠ '{' →
        arrLoop (n + 1) acc s = .ok (.arr acc) s1)
    ∧ (∀ (n : Nat) (acc : List Json) (s s1 : List Char),
        read_whitespace s = (some '{', s1) →
        arrLoop (n + 1) acc s =
          match parse_json n ('{' :: s1) with
          | .ok v s2 => arrLoop n (acc ++ [v]) s2
          | .err e => .err e
          | .more => .more) := by
  refine ⟨rfl, ?_, ?_⟩
  · intro n acc s s1 c h hc
    simp only [arrLoop, h]
    split
    · rename_i heq
      rw [Prod.mk.injEq] at heq
      exact absurd (Option.some.inj heq.1) hc
    · rename_i heq
      rw [Prod.mk.injEq] at heq
      rw [heq.2]
  · intro n acc s s1 h
    simp only [arrLoop, h]

/-- C10 witness: the loop-stop statement applied to the stream 1] and
the loop-recurse statement applied to the stream with a leading
brace. -/
theorem array_break_consumes_witness :
    arrLoop 1 [] ['1', ']'] = .ok (.arr []) [']'] :=
  array_break_consumes.2.1 0 [] ['1', ']'] [']'] '1' rfl (by decide)

end Myjson
